import Mathlib

/-
Verification development for the workflow state tracking and analytics
aggregation layer of the Lead_Generation_Agent repository:
  - listeners/analytics_parser.py   (class AnalyticsParser)
  - listeners/state_manager.py      (class WorkflowStateManager)
  - listeners/event_handlers.py     (class EventHandlers)
  - listeners/ui_progress_listener.py (class UIProgressListener)
  - models/analytics_models.py      (AgentExecutionRecord, WorkflowAnalytics)

Modelling conventions (shallow embedding):
  - Python runtime values are embedded as the inductive type PyVal
    (None, bool, int, float, str, list, dict with string keys, and an
    opaque object that may expose a `leads` attribute and a `__len__`).
  - Python floats are modelled as rationals; every float arithmetic that
    the claims touch (percentages with denominator 4, linear ETA
    extrapolation) is exact in IEEE double for the claim-relevant values,
    so the rational model is faithful there.
  - time.time() readings are passed in explicitly as a rational `now`
    parameter; a method that reads the clock more than once inside one
    critical section is modelled with a single instant.
  - Fallible Python code returns Except PyErr; a catch-all
    `except Exception` is modelled by matching on the error case.
  - threading.Lock is not reentrant: code that re-acquires the lock it
    already holds (process_agent_output's except-branch calling
    update_analytics) blocks forever; this is modelled as Option.none
    (the call never returns, so no further operation runs).
-/

/-- Exceptions that the embedded code can raise. -/
inductive PyErr where
  | attributeError (name : String)
  | typeError
  | valueError
  | zeroDivisionError
  | validationError
deriving Repr, DecidableEq

/-- Python runtime values, as consumed by the analytics layer.
`obj leads len?` is an opaque object that exposes a `leads` attribute when
`leads` is `some`, and supports `len()` (returning `len?.get`) when `len?`
is `some`. -/
inductive PyVal where
  | none : PyVal
  | bool : Bool → PyVal
  | int : Int → PyVal
  | float : ℚ → PyVal
  | str : String → PyVal
  | list : List PyVal → PyVal
  | dict : List (String × PyVal) → PyVal
  | obj : Option PyVal → Option Nat → PyVal

/-- Dictionary lookup (Python `d[k]` / `d.get(k)` on string-keyed dicts). -/
def alookup {α : Type} (d : List (String × α)) (k : String) : Option α :=
  (d.find? (fun p => p.1 == k)).map (fun p => p.2)

/-- Replace the value of an existing key (leaves the dict unchanged if the
key is absent). -/
def setKey (d : List (String × PyVal)) (k : String) (v : PyVal) :
    List (String × PyVal) :=
  d.map (fun p => if p.1 = k then (p.1, v) else p)

/-- Python truthiness (`if x:`), restricted to the embedded value type.
An object without `__len__` is truthy; with `__len__` its truth is
`len(x) != 0`. -/
def pyTruthy : PyVal → Bool
  | .none => false
  | .bool b => b
  | .int n => n != 0
  | .float q => q != 0
  | .str s => !s.data.isEmpty
  | .list l => !l.isEmpty
  | .dict d => !d.isEmpty
  | .obj _ (some n) => n != 0
  | .obj _ Option.none => true

/-- ASCII lowercasing of one character (the embedded strings are ASCII;
this realises str.lower / re.IGNORECASE). -/
def lowerChar (c : Char) : Char :=
  if 'A' ≤ c ∧ c ≤ 'Z' then Char.ofNat (c.toNat + 32) else c

/-- Lowercased character list of a string. -/
def lowerData (s : String) : List Char := s.data.map lowerChar

/-- Does `hay` start with `pat`? -/
def chStarts : List Char → List Char → Bool
  | [], _ => true
  | _ :: _, [] => false
  | p :: ps, c :: cs => p = c && chStarts ps cs

/-- Python `pat in hay` substring test on character lists. -/
def chContains (hay pat : List Char) : Bool :=
  chStarts pat hay ||
    match hay with
    | [] => false
    | _ :: rest => chContains rest pat

/-- Python `len(x)`: `some` for sized values, `none` means `TypeError`. -/
def pyLen : PyVal → Option Nat
  | .str s => some s.length
  | .list l => some l.length
  | .dict d => some d.length
  | .obj _ (some n) => some n
  | _ => Option.none

/-- Numeric value of a Python number (bool counts as 0 or 1, as in
Python where bool is a subclass of int); `none` for non-numbers. -/
def pyNum : PyVal → Option ℚ
  | .bool b => some (if b then 1 else 0)
  | .int n => some (n : ℚ)
  | .float q => some q
  | _ => Option.none

/-- Truncation toward zero, as Python `int()` does on floats. -/
def ratTrunc (q : ℚ) : Int := if 0 ≤ q then Int.floor q else Int.ceil q

/-- Python regex whitespace class, also used for int()/float() stripping. -/
def pyIsSpace (c : Char) : Bool :=
  c = ' ' || c = '\t' || c = '\n' || c = '\r' || c = '\x0b' || c = '\x0c'

/-- Strip surrounding whitespace. -/
def trimCh (cs : List Char) : List Char :=
  ((cs.dropWhile pyIsSpace).reverse.dropWhile pyIsSpace).reverse

/-- Digit run to a natural number. -/
def digitsToNat (ds : List Char) : Nat :=
  ds.foldl (fun acc c => 10 * acc + (c.toNat - '0'.toNat)) 0

/-- Parse an optionally signed integer literal; `none` when the string is
not an integer literal (Python raises ValueError there). -/
def chToIntLit : List Char → Option Int
  | [] => Option.none
  | '-' :: ds =>
    if !ds.isEmpty && ds.all Char.isDigit then some (-(digitsToNat ds : Int))
    else Option.none
  | '+' :: ds =>
    if !ds.isEmpty && ds.all Char.isDigit then some ((digitsToNat ds : Int))
    else Option.none
  | ds =>
    if ds.all Char.isDigit then some ((digitsToNat ds : Int)) else Option.none

/-- Python `int(x)`: ints pass through, bools become 0/1, floats truncate,
integer-literal strings parse, everything else raises. -/
def pyIntCast : PyVal → Except PyErr Int
  | .int n => .ok n
  | .bool b => .ok (if b then 1 else 0)
  | .float q => .ok (ratTrunc q)
  | .str s =>
    match chToIntLit (trimCh s.data) with
    | some n => .ok n
    | Option.none => .error .valueError
  | _ => .error .typeError

/-- Python `float(x)` (string parsing is modelled for integer-literal
strings; non-numeric values raise). -/
def pyFloatCast : PyVal → Except PyErr ℚ
  | .int n => .ok (n : ℚ)
  | .float q => .ok q
  | .bool b => .ok (if b then 1 else 0)
  | .str s =>
    match chToIntLit (trimCh s.data) with
    | some n => .ok ((n : Int) : ℚ)
    | Option.none => .error .valueError
  | _ => .error .typeError

/-- Python `max(a, b)` on two values: returns `b` exactly when `b > a`
(ties keep the first argument); comparing non-numbers raises TypeError. -/
def pyMax (a b : PyVal) : Except PyErr PyVal :=
  match pyNum a, pyNum b with
  | some x, some y => .ok (if x < y then b else a)
  | _, _ => .error .typeError

/- ----------------------------------------------------------------------
Text-pattern matching used by AnalyticsParser._parse_text_output.
The seven regular expressions in AnalyticsParser.lead_patterns are
sequences of the following tokens; the text is lowercased first, which
realises re.IGNORECASE.  All patterns contain exactly one capture group
over a digit run, and every token boundary is unambiguous (digits,
whitespace and letters are disjoint), so the greedy matcher below has the
same matches as the regex engine on these patterns.
---------------------------------------------------------------------- -/

/-- Tokens of the fixed lead-count regular expressions. -/
inductive RTok where
  | group            -- a capture group over one or more digits
  | ws1              -- one or more whitespace characters
  | ws0              -- zero or more whitespace characters
  | lit (s : String) -- a literal (already lowercase)
  | optS             -- an optional letter s

/-- Consume a literal from the front of the input. -/
def dropLit : List Char → List Char → Option (List Char)
  | [], cs => some cs
  | _ :: _, [] => Option.none
  | p :: ps, c :: cs => if c = p then dropLit ps cs else Option.none

/-- Match a token sequence against a prefix of the input, returning the
captured digit run if the whole sequence matches. -/
def matchToks : List RTok → List Char → Option Nat → Option Nat
  | [], _, cap => cap
  | .group :: ts, cs, _ =>
    let p := cs.span Char.isDigit
    if p.1.isEmpty then Option.none
    else matchToks ts p.2 (some (digitsToNat p.1))
  | .ws1 :: ts, cs, cap =>
    let p := cs.span pyIsSpace
    if p.1.isEmpty then Option.none else matchToks ts p.2 cap
  | .ws0 :: ts, cs, cap => matchToks ts (cs.dropWhile pyIsSpace) cap
  | .lit l :: ts, cs, cap =>
    match dropLit l.data cs with
    | some rest => matchToks ts rest cap
    | Option.none => Option.none
  | .optS :: ts, cs, cap =>
    match cs with
    | 's' :: rest => matchToks ts rest cap
    | _ => matchToks ts cs cap

/-- Leftmost match of a token sequence anywhere in the input
(re.findall scans left to right; the code uses the first match). -/
def searchToks (toks : List RTok) : List Char → Option Nat
  | [] => matchToks toks [] Option.none
  | c :: rest =>
    match matchToks toks (c :: rest) Option.none with
    | some n => some n
    | Option.none => searchToks toks rest

/-- AnalyticsParser.lead_patterns, in source order. -/
def lead_patterns : List (List RTok) :=
  [ [.group, .ws1, .lit "lead", .optS, .ws1, .lit "found"],
    [.lit "found", .ws1, .group, .ws1, .lit "lead", .optS],
    [.group, .ws1, .lit "contact", .optS, .ws1, .lit "found"],
    [.lit "found", .ws1, .group, .ws1, .lit "contact", .optS],
    [.lit "total", .ws1, .lit "lead", .optS, .lit ":", .ws0, .group],
    [.lit "lead", .optS, .lit ":", .ws0, .group],
    [.lit "contact", .optS, .lit ":", .ws0, .group] ]

/-- AnalyticsParser._parse_text_output: first pattern (in list order) that
matches anywhere in the lowercased text wins; 0 if none match.  The
captured digits always parse, so the ValueError branch is dead. -/
def parse_text_output (text : String) : Nat :=
  ((lead_patterns.findSome? (fun p => searchToks p (lowerData text)))).getD 0

/- ----------------------------------------------------------------------
AnalyticsParser._parse_dict_output and parse_agent_output
(listeners/analytics_parser.py).
---------------------------------------------------------------------- -/

/-- The leads-count resolution of AnalyticsParser._parse_dict_output:
explicit leads_found field (int cast) first; else length of a list-valued
leads field; else length of the nested leads entry of a dict-valued leads
field; else 0. -/
def dict_leads (data : List (String × PyVal)) : Except PyErr Int :=
  match alookup data "leads_found" with
  | some v => pyIntCast v
  | Option.none =>
    match alookup data "leads" with
    | some (.list l) => .ok (l.length : Int)
    | some (.dict nd) =>
      match alookup nd "leads" with
      | some nv =>
        match pyLen nv with
        | some n => .ok (n : Int)
        | Option.none => .error .typeError
      | Option.none => .ok 0
    | some _ => .ok 0
    | Option.none => .ok 0

/-- AnalyticsParser._parse_dict_output: leads count as in `dict_leads`,
then execution_time (float cast) if the key is present.  Any raised cast
or len error propagates to the caller. -/
def parse_dict_output (data : List (String × PyVal)) :
    Except PyErr (Int × Option ℚ) :=
  match dict_leads data with
  | .error e => .error e
  | .ok leads =>
    match alookup data "execution_time" with
    | some v =>
      match pyFloatCast v with
      | .ok q => .ok (leads, some q)
      | .error e => .error e
    | Option.none => .ok (leads, Option.none)

/-- The record returned by AnalyticsParser.parse_agent_output. -/
structure ParseResult where
  leads_found : Int
  execution_time : ℚ
  success : Bool
  error_message : Option String

/-- The initial analytics record of parse_agent_output. -/
def defaultParseResult : ParseResult :=
  { leads_found := 0, execution_time := 0, success := true,
    error_message := Option.none }

/-- Printable message of a caught exception (`str(e)`). -/
def errText : PyErr → String
  | .attributeError n => "AttributeError " ++ n
  | .typeError => "TypeError"
  | .valueError => "ValueError"
  | .zeroDivisionError => "ZeroDivisionError"
  | .validationError => "ValidationError"

/-- AnalyticsParser.parse_agent_output: shape dispatch in source order
(str, dict, list, object with a leads attribute, warning otherwise); the
surrounding try/except turns any raised error into success=false with an
error message.  Only the dict branch can raise. -/
def parse_agent_output (_agent_name : String) (output : PyVal) : ParseResult :=
  match output with
  | .str s => { defaultParseResult with leads_found := (parse_text_output s : Int) }
  | .dict d =>
    match parse_dict_output d with
    | .ok le => { defaultParseResult with
                    leads_found := le.1,
                    execution_time := le.2.getD 0 }
    | .error e => { defaultParseResult with
                      success := false,
                      error_message := some (errText e) }
  | .list l => { defaultParseResult with leads_found := (l.length : Int) }
  | .obj (some lv) _ =>
    match pyLen lv with
    | some n => { defaultParseResult with leads_found := (n : Int) }
    | Option.none => defaultParseResult
  | _ => defaultParseResult

/-- The analytics record produced by AnalyticsParser.create_workflow_analytics. -/
structure WorkflowAnalyticsAgg where
  leads_found : Int
  execution_time : ℚ
  success_rate : ℚ

/-- AnalyticsParser.create_workflow_analytics: sum of per-result leads,
success rate guarded against an empty result list. -/
def create_workflow_analytics (agent_results : List ParseResult)
    (execution_time : ℚ) : WorkflowAnalyticsAgg :=
  let total_leads := (agent_results.map (fun r => r.leads_found)).sum
  let success_count := (agent_results.filter (fun r => r.success)).length
  let total_agents := agent_results.length
  let success_rate : ℚ :=
    if 0 < total_agents then (success_count : ℚ) / (total_agents : ℚ) else 0
  { leads_found := total_leads, execution_time := execution_time,
    success_rate := success_rate }

/- ----------------------------------------------------------------------
AgentExecutionRecord.extract_analytics (models/analytics_models.py).
---------------------------------------------------------------------- -/

/-- AgentExecutionRecord.extract_analytics, as the leads_found value it
stores into the fresh WorkflowAnalytics: the default 0 when the record is
unsuccessful or the output falsy; 1 for text mentioning a lead or contact;
the raw (uncast) leads_found entry of a dict; the length of a list; the
length of the leads attribute of an object that itself supports len().
The dict entry is assigned without validation, so it can be any value. -/
def extract_analytics (output_data : PyVal) (success : Bool) :
    Except PyErr PyVal :=
  if !success || !(pyTruthy output_data) then .ok (.int 0)
  else
    match output_data with
    | .str s =>
      let sl := lowerData s
      .ok (if chContains sl "lead".data || chContains sl "contact".data
           then .int 1 else .int 0)
    | .dict d => .ok ((alookup d "leads_found").getD (.int 0))
    | .list l => .ok (.int (l.length : Int))
    | .obj (some lv) (some _) =>
      match pyLen lv with
      | some n => .ok (.int (n : Int))
      | Option.none => .error .typeError
    | _ => .ok (.int 0)


/- ----------------------------------------------------------------------
WorkflowStateManager (listeners/state_manager.py).
The manager holds a plain state dict `_state` and, separately, a Pydantic
WorkflowAnalytics model `_analytics`; only the leads_found field of the
latter is ever mutated, so the model keeps it as `pyd_leads_found`
(assignments are unvalidated in this Pydantic configuration, hence the
field holds an arbitrary value).  Every mutator runs under one
non-reentrant lock; the `now` parameter stands for the time.time()
readings inside the critical section.
---------------------------------------------------------------------- -/

/-- TASK_NAMES from state_manager.py: canonical task key to display name. -/
def TASK_NAMES : List (String × String) :=
  [("scrape_leads", "Lead Scraping"),
   ("find_lead_emails", "Email Finding"),
   ("validate_lead_emails", "Email Validation"),
   ("save_data", "Data Storage")]

/-- self._task_order = list(TASK_NAMES.keys()). -/
def task_order : List String :=
  ["scrape_leads", "find_lead_emails", "validate_lead_emails", "save_data"]

/-- list.index, as an option (position of the first occurrence). -/
def idxOf : List String → String → Option Nat
  | [], _ => Option.none
  | a :: as, t => if a = t then some 0 else (idxOf as t).map (fun i => i + 1)

/-- The state owned by a WorkflowStateManager: the `_state` dict flattened
into fields, plus the mutable part of the Pydantic `_analytics` model. -/
structure SMState where
  workflow_status : String
  current_agent : Option String
  current_task : Option String
  current_tool : Option String
  completed_tasks : List String
  total_tasks : Nat
  current_step : Nat
  analytics : List (String × PyVal)
  start_time : Option ℚ
  current_task_start : Option ℚ
  estimated_completion_field : Option ℚ
  errors : List String
  last_update : ℚ
  evaluation : Option (List (String × PyVal))
  pyd_leads_found : PyVal

/-- WorkflowStateManager._initialize_state (plus the fresh Pydantic
analytics model created in __init__ / kept across reset_state callers'
expectations: a fresh manager has leads_found = 0). -/
def initState (now : ℚ) : SMState :=
  { workflow_status := "idle", current_agent := Option.none,
    current_task := Option.none, current_tool := Option.none,
    completed_tasks := [], total_tasks := 4, current_step := 0,
    analytics := [("leads_found", PyVal.int 0)],
    start_time := Option.none, current_task_start := Option.none,
    estimated_completion_field := Option.none,
    errors := [], last_update := now, evaluation := Option.none,
    pyd_leads_found := PyVal.int 0 }

/-- WorkflowStateManager.reset_state: replaces `_state` with a fresh dict
but keeps the Pydantic `_analytics` model (the source does not reset it). -/
def reset_state (sm : SMState) (now : ℚ) : SMState :=
  { initState now with pyd_leads_found := sm.pyd_leads_found }

/-- WorkflowStateManager.update_workflow_status. -/
def update_workflow_status (sm : SMState) (status : String) (now : ℚ) : SMState :=
  { sm with workflow_status := status, last_update := now }

/-- WorkflowStateManager.update_current_agent. -/
def update_current_agent (sm : SMState) (agent_role : Option String) (now : ℚ) : SMState :=
  { sm with current_agent := agent_role, last_update := now }

/-- WorkflowStateManager.update_current_task.  `if task_name:` is Python
truthiness, so the empty string behaves like None.  When the name is not
in the canonical task order, current_step keeps its previous value; when
task_name is falsy, only current_task is cleared (current_step and
current_task_start are left as they were). -/
def update_current_task (sm : SMState) (task_name : Option String) (now : ℚ) : SMState :=
  match task_name with
  | some t =>
    if t = "" then { sm with current_task := Option.none, last_update := now }
    else
      let sm1 := { sm with
        current_task := some ((alookup TASK_NAMES t).getD t),
        current_task_start := some now }
      let sm2 :=
        match idxOf task_order t with
        | some i => { sm1 with current_step := i + 1 }
        | Option.none => sm1
      { sm2 with last_update := now }
  | Option.none => { sm with current_task := Option.none, last_update := now }

/-- WorkflowStateManager.update_current_tool. -/
def update_current_tool (sm : SMState) (tool_name : Option String) (now : ℚ) : SMState :=
  { sm with current_tool := tool_name, last_update := now }

/-- WorkflowStateManager.add_completed_task: appends the display name if
not already present (insertion-ordered, deduplicated). -/
def add_completed_task (sm : SMState) (task_name : String) (now : ℚ) : SMState :=
  let ct := (alookup TASK_NAMES task_name).getD task_name
  let sm1 :=
    if sm.completed_tasks.contains ct then sm
    else { sm with completed_tasks := sm.completed_tasks ++ [ct] }
  { sm1 with last_update := now }

/-- WorkflowStateManager.add_error. -/
def add_error (sm : SMState) (err : String) (now : ℚ) : SMState :=
  { sm with errors := sm.errors ++ [err], last_update := now }

/-- WorkflowStateManager.update_analytics: writes only keys that already
exist in the state's analytics dict; unknown keys are dropped. -/
def update_analytics (sm : SMState) (updates : List (String × PyVal)) (now : ℚ) : SMState :=
  let d := updates.foldl
    (fun acc kv => if (alookup acc kv.1).isSome then setKey acc kv.1 kv.2 else acc)
    sm.analytics
  { sm with analytics := d, last_update := now }

/-- dict.update on string-keyed dicts: overwrite existing keys, append new
ones. -/
def dictUpd (d u : List (String × PyVal)) : List (String × PyVal) :=
  u.foldl
    (fun acc kv =>
      if (alookup acc kv.1).isSome then setKey acc kv.1 kv.2 else acc ++ [kv])
    d

/-- WorkflowStateManager.update_evaluation_results. -/
def update_evaluation_results (sm : SMState) (res : List (String × PyVal)) (now : ℚ) : SMState :=
  { sm with
    evaluation := some (dictUpd (sm.evaluation.getD []) res),
    last_update := now }

/-- WorkflowStateManager.set_start_time. -/
def set_start_time (sm : SMState) (now : ℚ) : SMState :=
  { sm with start_time := some now, last_update := now }

/-- Pydantic validation of AgentExecutionRecord's Optional[float]
execution_time field: None and numbers pass, numeric strings coerce,
anything else raises ValidationError during record construction. -/
def validOptionalFloat : PyVal → Bool
  | .none => true
  | .int _ => true
  | .float _ => true
  | .bool _ => true
  | .str s => (chToIntLit (trimCh s.data)).isSome
  | _ => false

/-- The except-branch of process_agent_output: on a dict output it calls
self.update_analytics(output), which re-acquires the non-reentrant lock
already held by process_agent_output and therefore never returns
(modelled as `none`); on any other output it silently no-ops. -/
def paoFallback (sm : SMState) (output : PyVal) : Option SMState :=
  match output with
  | .dict _ => Option.none
  | _ => some sm

/-- WorkflowStateManager.process_agent_output: builds an
AgentExecutionRecord (validation of execution_time may raise), extracts a
leads_found delta via extract_analytics, merges it with
max(current, delta) into the Pydantic model, and syncs the state dict's
analytics to the merged value.  Any raised error lands in the
except-branch (`paoFallback`). -/
def process_agent_output (sm : SMState) (_agent_name _task_name : String)
    (output : PyVal) (success : Bool) (_error_message : Option String)
    (execution_time : PyVal) (now : ℚ) : Option SMState :=
  if validOptionalFloat execution_time then
    match extract_analytics output success with
    | .ok newLeads =>
      match pyMax sm.pyd_leads_found newLeads with
      | .ok m => some { sm with
          pyd_leads_found := m,
          analytics := [("leads_found", m)],
          last_update := now }
      | .error _ => paoFallback sm output
    | .error _ => paoFallback sm output
  else paoFallback sm output

/-- The snapshot returned by WorkflowStateManager.get_state. -/
structure StateSnapshot where
  workflow_status : String
  current_agent : Option String
  current_task : Option String
  current_tool : Option String
  percentage : ℚ
  completed_tasks : List String
  total_tasks : Nat
  current_step : Nat
  analytics : List (String × PyVal)
  start_time : Option ℚ
  current_task_start : Option ℚ
  estimated_completion : Option ℚ
  errors : List String
  last_update : ℚ

/-- Python round(x, 1). -/
def round1 (q : ℚ) : ℚ := ((round (10 * q) : Int) : ℚ) / 10

/-- WorkflowStateManager.get_state: derived percentage (a division that
would raise if total_tasks were 0) and the linear ETA extrapolation, which
is produced only when start_time and current_task_start are truthy (a
float is truthy when non-zero) and current_step > 0.  The two time.time()
readings of the source are modelled as the single instant `now`. -/
def get_state (sm : SMState) (now : ℚ) : Except PyErr StateSnapshot :=
  if sm.total_tasks = 0 then .error .zeroDivisionError
  else
    let pct := round1 (((sm.completed_tasks.length : ℚ) / (sm.total_tasks : ℚ)) * 100)
    let est : Option ℚ :=
      match sm.start_time, sm.current_task_start with
      | some s, some c =>
        if s != 0 && c != 0 && decide (0 < sm.current_step) then
          some (now + ((now - s) / (sm.current_step : ℚ)) *
            ((sm.total_tasks : ℚ) - (sm.current_step : ℚ)))
        else Option.none
      | _, _ => Option.none
    .ok { workflow_status := sm.workflow_status,
          current_agent := sm.current_agent,
          current_task := sm.current_task,
          current_tool := sm.current_tool,
          percentage := pct,
          completed_tasks := sm.completed_tasks,
          total_tasks := sm.total_tasks,
          current_step := sm.current_step,
          analytics := sm.analytics,
          start_time := sm.start_time,
          current_task_start := sm.current_task_start,
          estimated_completion := est,
          errors := sm.errors,
          last_update := sm.last_update }

/- ----------------------------------------------------------------------
EventHandlers (listeners/event_handlers.py).
Events arrive as loosely-typed dicts.  Two calls in this class name
methods that AnalyticsParser does not define:
  - handle_crew_end calls self.analytics_parser.extract_analytics_from_result,
  - handle_task_end calls self.analytics_parser.parse_task_output;
analytics_parser.py contains neither method, so each call raises
AttributeError at the call site (modelled as the corresponding error).
---------------------------------------------------------------------- -/

/-- The timing dictionaries owned by EventHandlers. -/
structure EHState where
  agent_start_times : List (String × ℚ)
  task_start_times : List (String × ℚ)

/-- A fresh EventHandlers instance. -/
def initEH : EHState := { agent_start_times := [], task_start_times := [] }

/-- dict.pop(k, None): drop the key. -/
def removeKey (d : List (String × ℚ)) (k : String) : List (String × ℚ) :=
  d.filter (fun p => p.1 != k)

/-- `event.get(k1, {}).get(k2, dflt)`: returns the default when k1 is
absent; raises AttributeError when the value under k1 is not a dict. -/
def ev_get_nested (ev : List (String × PyVal)) (k1 k2 : String)
    (dflt : PyVal) : Except PyErr PyVal :=
  match alookup ev k1 with
  | Option.none => .ok dflt
  | some (.dict d) => .ok ((alookup d k2).getD dflt)
  | some _ => .error (.attributeError "get")

/-- EventHandlers._extract_task_key: ordered substring matching over the
lowercased task description; a non-string description raises on .lower(). -/
def extract_task_key (desc : PyVal) : Except PyErr String :=
  match desc with
  | .str s =>
    let t := lowerData s
    .ok (if chContains t "user input".data || chContains t "collect".data
          then "collect_user_input"
        else if chContains t "scrape".data || chContains t "lead".data
          then "scrape_leads"
        else if chContains t "validate".data || chContains t "email validation".data
          then "validate_lead_emails"
        else if chContains t "save".data || chContains t "data".data
          then "save_data"
        else "unknown_task")
  | _ => .error (.attributeError "lower")

/-- EventHandlers._extract_agent_name_from_task. -/
def extract_agent_name_from_task (task_key : String) : String :=
  if task_key = "collect_user_input" then "user_input_agent"
  else if task_key = "scrape_leads" then "scraper_agent"
  else if task_key = "validate_lead_emails" then "email_validator_agent"
  else if task_key = "save_data" then "data_analytics_agent"
  else "unknown_agent"

/-- EventHandlers.handle_crew_end: sets status completed and clears the
current pointers; then, if the event carries a result, the call to the
nonexistent AnalyticsParser.extract_analytics_from_result raises
AttributeError, which escapes the handler (state mutations made before
the raise persist). -/
def handle_crew_end (sm : SMState) (ev : List (String × PyVal)) (now : ℚ) :
    SMState × Except PyErr Unit :=
  let sm := update_workflow_status sm "completed" now
  let sm := update_current_agent sm Option.none now
  let sm := update_current_task sm Option.none now
  let sm := update_current_tool sm Option.none now
  match alookup ev "result" with
  | some _ => (sm, .error (.attributeError "extract_analytics_from_result"))
  | Option.none => (sm, .ok ())

/-- EventHandlers.handle_task_end: resolves the task key, marks it
completed, pops its start time, and, when the event carries a truthy
output, routes the output through process_agent_output and then calls the
nonexistent AnalyticsParser.parse_task_output, which raises
AttributeError before the backup update_analytics merge can run.
`none` propagates a deadlock inside process_agent_output. -/
def handle_task_end (eh : EHState) (sm : SMState) (ev : List (String × PyVal))
    (now : ℚ) : Option (EHState × SMState × Except PyErr Unit) :=
  match ev_get_nested ev "task" "description" (.str "Unknown Task") with
  | .error e => some (eh, sm, .error e)
  | .ok desc =>
    match extract_task_key desc with
    | .error e => some (eh, sm, .error e)
    | .ok task_key =>
      let sm := add_completed_task sm task_key now
      let eh := { eh with
        task_start_times := removeKey eh.task_start_times task_key }
      match alookup ev "output" with
      | some out =>
        if pyTruthy out then
          let agent_name := extract_agent_name_from_task task_key
          let exec_time := (alookup ev "execution_time").getD PyVal.none
          match process_agent_output sm agent_name task_key out true
              Option.none exec_time now with
          | Option.none => Option.none
          | some sm2 =>
            some (eh, sm2, .error (.attributeError "parse_task_output"))
        else some (eh, sm, .ok ())
      | Option.none => some (eh, sm, .ok ())

/- ----------------------------------------------------------------------
The analytics updates performed during one workflow run.  State-dict
analytics are touched only by process_agent_output (handle_task_end's
backup update_analytics call is unreachable: parse_task_output raises
first, and handle_crew_end's update_analytics call is likewise preceded
by the failing extract_analytics_from_result call).  A run is therefore a
sequence of direct process_agent_output calls and handle_task_end
invocations; the `halted` flag records that a deadlock occurred, after
which nothing further executes in the process.
---------------------------------------------------------------------- -/

/-- One analytics-relevant step of a workflow run. -/
inductive RunStep where
  | pao (agent_name task_name : String) (output : PyVal) (success : Bool)
      (error_message : Option String) (execution_time : PyVal) (now : ℚ)
  | taskEnd (ev : List (String × PyVal)) (now : ℚ)

/-- Run configuration: handler timing state, manager state, deadlock flag. -/
structure RunSt where
  eh : EHState
  sm : SMState
  halted : Bool

/-- Initial run configuration. -/
def initRun : RunSt := { eh := initEH, sm := initState 0, halted := false }

/-- Execute one step (a deadlocked process executes nothing further). -/
def runStep (rs : RunSt) (s : RunStep) : RunSt :=
  if rs.halted then rs
  else
    match s with
    | .pao a t out succ em et now =>
      match process_agent_output rs.sm a t out succ em et now with
      | some sm2 => { rs with sm := sm2 }
      | Option.none => { rs with halted := true }
    | .taskEnd ev now =>
      match handle_task_end rs.eh rs.sm ev now with
      | some r => { rs with eh := r.1, sm := r.2.1 }
      | Option.none => { rs with halted := true }

/-- Execute a sequence of steps. -/
def runSteps (rs : RunSt) (l : List RunStep) : RunSt := l.foldl runStep rs

/-- The leads_found entry of the state dict's analytics mapping, as a
rational (0 when absent or non-numeric). -/
def leadsQ (sm : SMState) : ℚ :=
  ((alookup sm.analytics "leads_found").bind pyNum).getD 0

/- ----------------------------------------------------------------------
UIProgressListener (listeners/ui_progress_listener.py).
---------------------------------------------------------------------- -/

/-- The state dict of a UIProgressListener. -/
structure UIState where
  ui_workflow_status : String
  ui_current_agent : Option String
  ui_current_task : Option String
  ui_current_tool : Option String
  ui_percentage : Int
  ui_completed_tasks : List String
  ui_total_tasks : Nat
  ui_leads_found : PyVal
  ui_evaluation : List (String × PyVal)

/-- A fresh UIProgressListener (total_tasks is 0 until
on_workflow_start runs). -/
def uiInit : UIState :=
  { ui_workflow_status := "idle", ui_current_agent := Option.none,
    ui_current_task := Option.none, ui_current_tool := Option.none,
    ui_percentage := 0, ui_completed_tasks := [], ui_total_tasks := 0,
    ui_leads_found := PyVal.int 0, ui_evaluation := [] }

/-- UIProgressListener.on_workflow_start. -/
def on_workflow_start (st : UIState) : UIState :=
  { st with
    ui_workflow_status := "running", ui_total_tasks := 4,
    ui_completed_tasks := [], ui_percentage := 0 }

/-- UIProgressListener.on_task_complete: clears the matching current
task, records the task on success (deduplicated), and recomputes the
percentage only when total_tasks > 0 — the `if total > 0` guard is what
prevents a division by zero before on_workflow_start has run.
Python int() truncates; the operand here is non-negative, so floor. -/
def on_task_complete (st : UIState) (task_name : String) (success : Bool) :
    UIState :=
  let st1 :=
    if st.ui_current_task = some task_name
    then { st with ui_current_task := Option.none } else st
  let st2 :=
    if success && !(st1.ui_completed_tasks.contains task_name)
    then { st1 with
            ui_completed_tasks := st1.ui_completed_tasks ++ [task_name] }
    else st1
  if 0 < st2.ui_total_tasks then
    { st2 with
      ui_percentage :=
        Int.floor (((st2.ui_completed_tasks.length : ℚ) /
          (st2.ui_total_tasks : ℚ)) * 100) }
  else st2

/- ----------------------------------------------------------------------
Concrete states, operation alphabets and invariant definitions used by
the theorems below.
---------------------------------------------------------------------- -/

/-- A concrete two-element result list (3 leads successful, 2 leads
failed) used to witness claim C7. -/
def c7results : List ParseResult :=
  [⟨3, 0, true, Option.none⟩, ⟨2, 0, false, Option.none⟩]

/-- Concrete manager state: one of four tasks completed, started at time
10, current task started at 12, on step 1. -/
def c8sm : SMState :=
  { initState 0 with
    completed_tasks := ["Lead Scraping"], start_time := some 10,
    current_task_start := some 12, current_step := 1 }

/-- Three intermediate states for the C9 counterexample: a successful
3-lead report, then reset_state (which resets the state dict but not the
Pydantic analytics model), then a failed report. -/
def c9state1 : SMState :=
  (process_agent_output (initState 0) "scraper_agent" "scrape_leads"
    (.list [.int 1, .int 2, .int 3]) true Option.none PyVal.none 1).getD
    (initState 0)

/-- State after reset_state. -/
def c9state2 : SMState := reset_state c9state1 2

/-- State after a process_agent_output call with success = false. -/
def c9state3 : SMState :=
  (process_agent_output c9state2 "scraper_agent" "scrape_leads"
    (.str "irrelevant") false Option.none PyVal.none 3).getD c9state2

/-- The public mutating operations of WorkflowStateManager, each carrying
its time.time() reading. -/
inductive SMOp where
  | reset (now : ℚ)
  | setStatus (s : String) (now : ℚ)
  | setAgent (a : Option String) (now : ℚ)
  | setTask (t : Option String) (now : ℚ)
  | setTool (t : Option String) (now : ℚ)
  | addTask (t : String) (now : ℚ)
  | addErr (e : String) (now : ℚ)
  | updAnalytics (u : List (String × PyVal)) (now : ℚ)
  | updEval (u : List (String × PyVal)) (now : ℚ)
  | pao (a t : String) (out : PyVal) (succ : Bool) (em : Option String)
      (et : PyVal) (now : ℚ)
  | setStart (now : ℚ)

/-- Apply one manager operation; the Bool flag records that a deadlock
occurred (in process_agent_output's fallback on a dict output), after
which no further operation executes. -/
def apply_op (st : SMState × Bool) (op : SMOp) : SMState × Bool :=
  if st.2 then st
  else
    match op with
    | .reset now => (reset_state st.1 now, false)
    | .setStatus s now => (update_workflow_status st.1 s now, false)
    | .setAgent a now => (update_current_agent st.1 a now, false)
    | .setTask t now => (update_current_task st.1 t now, false)
    | .setTool t now => (update_current_tool st.1 t now, false)
    | .addTask t now => (add_completed_task st.1 t now, false)
    | .addErr e now => (add_error st.1 e now, false)
    | .updAnalytics u now => (update_analytics st.1 u now, false)
    | .updEval u now => (update_evaluation_results st.1 u now, false)
    | .pao a t out succ em et now =>
      match process_agent_output st.1 a t out succ em et now with
      | some sm => (sm, false)
      | Option.none => (st.1, true)
    | .setStart now => (set_start_time st.1 now, false)

/-- Apply a sequence of manager operations. -/
def run_ops (st : SMState × Bool) (ops : List SMOp) : SMState × Bool :=
  ops.foldl apply_op st

/-- During a run (where only process_agent_output touches analytics) the
state dict's analytics stays the one-key sync of the Pydantic model, and
the model's leads value is a non-negative number. -/
def SyncInv (sm : SMState) : Prop :=
  sm.analytics = [("leads_found", sm.pyd_leads_found)]
  ∧ ∃ q, pyNum sm.pyd_leads_found = some q ∧ 0 ≤ q

/- ----------------------------------------------------------------------
Helper lemmas.
---------------------------------------------------------------------- -/

/-- A dict with a successful key lookup is non-empty. -/
theorem alookup_some_ne_nil {α : Type} {d : List (String × α)} {k : String}
    {v : α} (h : alookup d k = some v) : d ≠ [] := by
  intro hnil
  subst hnil
  simp [alookup] at h

/-- If the dict has an explicit leads_found entry whose int cast succeeds,
a successful _parse_dict_output returns exactly that value. -/
theorem dict_explicit_leads {d : List (String × PyVal)} {v : PyVal} {n l : Int}
    {et : Option ℚ} (hv : alookup d "leads_found" = some v)
    (hc : pyIntCast v = .ok n) (hp : parse_dict_output d = .ok (l, et)) :
    l = n := by
  rcases h : alookup d "execution_time" with _ | w
  · simp only [parse_dict_output, dict_leads, hv, hc, h, Except.ok.injEq,
      Prod.mk.injEq] at hp
    exact hp.1.symm
  · rcases hf : pyFloatCast w with e | q
    · simp [parse_dict_output, dict_leads, hv, hc, h, hf] at hp
    · simp only [parse_dict_output, dict_leads, hv, hc, h, hf,
        Except.ok.injEq, Prod.mk.injEq] at hp
      exact hp.1.symm


/-- A successful parse of a dict output pins down the leads computation. -/
theorem parse_dict_ok_leads {d : List (String × PyVal)} {l : Int}
    {et : Option ℚ} (hp : parse_dict_output d = .ok (l, et)) :
    dict_leads d = .ok l := by
  rcases hd : dict_leads d with e | leads
  · simp [parse_dict_output, hd] at hp
  · rcases h : alookup d "execution_time" with _ | w
    · simp only [parse_dict_output, hd, h, Except.ok.injEq, Prod.mk.injEq] at hp
      rw [hp.1]
    · rcases hf : pyFloatCast w with e | q
      · simp [parse_dict_output, hd, h, hf] at hp
      · simp only [parse_dict_output, hd, h, hf, Except.ok.injEq,
          Prod.mk.injEq] at hp
        rw [hp.1]

/- ----------------------------------------------------------------------
Claim C7.
---------------------------------------------------------------------- -/

/-- Claim C7: for every list of N per-agent parse results,
create_workflow_analytics returns leads_found equal to the sum of the
results' leads_found values and success_rate equal to
(count of successful results) / N, and for the empty list it returns
success_rate 0 instead of dividing by zero. -/
theorem claim_C7 (rs : List ParseResult) (et : ℚ) :
    (create_workflow_analytics rs et).leads_found
        = (rs.map (fun r => r.leads_found)).sum
    ∧ (0 < rs.length →
        (create_workflow_analytics rs et).success_rate
          = ((rs.filter (fun r => r.success)).length : ℚ) / (rs.length : ℚ))
    ∧ (rs = [] → (create_workflow_analytics rs et).success_rate = 0) := by
  refine ⟨rfl, ?_, ?_⟩
  · intro h
    simp only [create_workflow_analytics, if_pos h]
  · intro h
    subst h
    rfl

/-- Witness for claim C7: at the concrete two-element list the success
rate is the filtered count over 2. -/
theorem claim_C7_witness :
    (create_workflow_analytics c7results 0).success_rate
      = ((c7results.filter (fun r => r.success)).length : ℚ) / (c7results.length : ℚ) :=
  (claim_C7 c7results 0).2.1 (by decide)

/- ----------------------------------------------------------------------
Claim C10.
---------------------------------------------------------------------- -/

/-- Claim C10: calling on_task_complete before on_workflow_start (so
total_tasks = 0) records the completed task and returns normally; the
percentage division is skipped by the total > 0 guard, leaving the
percentage unchanged. -/
theorem claim_C10 (st : UIState) (task : String)
    (h0 : st.ui_total_tasks = 0)
    (hnew : st.ui_completed_tasks.contains task = false) :
    (on_task_complete st task true).ui_completed_tasks
        = st.ui_completed_tasks ++ [task]
    ∧ (on_task_complete st task true).ui_percentage = st.ui_percentage
    ∧ (on_task_complete st task true).ui_total_tasks = 0 := by
  have hmem : ¬ task ∈ st.ui_completed_tasks := by simpa using hnew
  unfold on_task_complete
  by_cases hct : st.ui_current_task = some task <;>
    simp [hct, hmem, h0]

/-- Witness for claim C10 at a fresh listener. -/
theorem claim_C10_witness :
    (on_task_complete uiInit "scrape_leads" true).ui_completed_tasks
        = uiInit.ui_completed_tasks ++ ["scrape_leads"]
    ∧ (on_task_complete uiInit "scrape_leads" true).ui_percentage
        = uiInit.ui_percentage
    ∧ (on_task_complete uiInit "scrape_leads" true).ui_total_tasks = 0 :=
  claim_C10 uiInit "scrape_leads" rfl rfl

/- ----------------------------------------------------------------------
Claim C6.
---------------------------------------------------------------------- -/

/-- Counterexample to claim C6: for a mapping whose leads entry is a
mapping whose own nested leads entry is again a mapping of one key, the
nested entry is not a sequence, so the claim's resolution order ends in
the "otherwise 0" case; the code instead applies len() to whatever sits
under the nested leads key and returns its size 1. -/
theorem claim_C6_counterexample :
    parse_dict_output
        [("leads", .dict [("leads", .dict [("x", .int 1)])])]
      = .ok (1, Option.none)
    ∧ (parse_agent_output "a"
        (.dict [("leads", .dict [("leads",
          .dict [("x", .int 1)])])])).leads_found = 1
    ∧ (1 : Int) ≠ 0 :=
  ⟨rfl, rfl, by decide⟩

/-- Claim C6 (amended): on mapping outputs that parse successfully the
parser resolves leads_found in this priority order — an explicit
leads_found field (int cast) wins; else the length of a list-valued leads
field; else, when leads is a mapping with a nested leads entry, len() of
that entry whenever it is sized, whether or not it is a sequence (an
unsized entry raises TypeError, caught upstream as success=false); in
every remaining case (a mapping-valued leads without a nested leads key,
a leads value that is neither list nor mapping, or no leads key at all)
the result is 0 — and execution_time is float-cast out when present; on
the two concrete examples the explicit field wins (7 over a 2-element
list) and the list length is used (3). -/
theorem claim_C6 :
    (∀ (d : List (String × PyVal)) (v : PyVal) (n l : Int) (et : Option ℚ),
      alookup d "leads_found" = some v → pyIntCast v = .ok n →
      parse_dict_output d = .ok (l, et) → l = n)
    ∧ (∀ (d : List (String × PyVal)) (xs : List PyVal) (l : Int) (et : Option ℚ),
      alookup d "leads_found" = Option.none →
      alookup d "leads" = some (.list xs) →
      parse_dict_output d = .ok (l, et) → l = (xs.length : Int))
    ∧ (∀ (d nd : List (String × PyVal)) (nv : PyVal) (m : Nat) (l : Int)
        (et : Option ℚ),
      alookup d "leads_found" = Option.none →
      alookup d "leads" = some (.dict nd) →
      alookup nd "leads" = some nv →
      pyLen nv = some m →
      parse_dict_output d = .ok (l, et) → l = (m : Int))
    ∧ (∀ (d nd : List (String × PyVal)) (l : Int) (et : Option ℚ),
      alookup d "leads_found" = Option.none →
      alookup d "leads" = some (.dict nd) →
      alookup nd "leads" = Option.none →
      parse_dict_output d = .ok (l, et) → l = 0)
    ∧ (∀ (d : List (String × PyVal)) (w : PyVal) (l : Int) (et : Option ℚ),
      alookup d "leads_found" = Option.none →
      alookup d "leads" = some w →
      (∀ xs, w ≠ PyVal.list xs) → (∀ nd, w ≠ PyVal.dict nd) →
      parse_dict_output d = .ok (l, et) → l = 0)
    ∧ (∀ (d : List (String × PyVal)) (l : Int) (et : Option ℚ),
      alookup d "leads_found" = Option.none →
      alookup d "leads" = Option.none →
      parse_dict_output d = .ok (l, et) → l = 0)
    ∧ (∀ (d : List (String × PyVal)) (v : PyVal) (q : ℚ) (l : Int) (et : Option ℚ),
      alookup d "execution_time" = some v → pyFloatCast v = .ok q →
      parse_dict_output d = .ok (l, et) → et = some q)
    ∧ (parse_agent_output "a"
        (.dict [("leads_found", .int 7),
                ("leads", .list [.int 1, .int 2])])).leads_found = 7
    ∧ (parse_agent_output "a"
        (.dict [("leads", .list [.int 1, .int 2, .int 3])])).leads_found = 3 := by
  refine ⟨?_, ?_, ?_, ?_, ?_, ?_, ?_, by rfl, by rfl⟩
  · intro d v n l et hv hc hp
    exact dict_explicit_leads hv hc hp
  · intro d xs l et hlf hl hp
    have hd := parse_dict_ok_leads hp
    simp only [dict_leads, hlf, hl] at hd
    exact (Except.ok.inj hd).symm
  · intro d nd nv m l et hlf hl hnd hlen hp
    have hd := parse_dict_ok_leads hp
    simp only [dict_leads, hlf, hl, hnd, hlen] at hd
    exact (Except.ok.inj hd).symm
  · intro d nd l et hlf hl hnd hp
    have hd := parse_dict_ok_leads hp
    simp only [dict_leads, hlf, hl, hnd] at hd
    exact (Except.ok.inj hd).symm
  · intro d w l et hlf hl hxs hnd hp
    have hd := parse_dict_ok_leads hp
    cases w
    case list xs => exact absurd rfl (hxs xs)
    case dict nd => exact absurd rfl (hnd nd)
    all_goals
      simp only [dict_leads, hlf, hl] at hd
      exact (Except.ok.inj hd).symm
  · intro d l et hlf hl hp
    have hd := parse_dict_ok_leads hp
    simp only [dict_leads, hlf, hl] at hd
    exact (Except.ok.inj hd).symm
  · intro d v q l et hv hf hp
    rcases hd : dict_leads d with e | leads
    · simp [parse_dict_output, hd] at hp
    · simp only [parse_dict_output, hd, hv, hf,
        Except.ok.injEq, Prod.mk.injEq] at hp
      exact hp.2.symm

/-- Witness for claim C6: the explicit-field rule applied at the concrete
example dict, whose parse result is computed to be (7, no time). -/
theorem claim_C6_witness :
    parse_dict_output [("leads_found", .int 7), ("leads", .list [.int 1, .int 2])]
      = .ok (7, Option.none)
    ∧ (7 : Int) = 7 :=
  ⟨rfl, claim_C6.1 [("leads_found", .int 7), ("leads", .list [.int 1, .int 2])]
      (.int 7) 7 7 Option.none rfl rfl rfl⟩

/- ----------------------------------------------------------------------
Claim C5.
---------------------------------------------------------------------- -/

/-- The leads count of a dict output is non-negative unless it came from
an explicit leads_found field. -/
theorem dict_leads_cases {d : List (String × PyVal)} {l : Int}
    (hd : dict_leads d = .ok l) :
    (∃ v, alookup d "leads_found" = some v ∧ pyIntCast v = .ok l)
    ∨ 0 ≤ l := by
  rcases hv : alookup d "leads_found" with _ | v
  · right
    rcases hl : alookup d "leads" with _ | w
    · simp only [dict_leads, hv, hl, Except.ok.injEq] at hd
      omega
    · cases w
      case list xs =>
        simp only [dict_leads, hv, hl, Except.ok.injEq] at hd
        omega
      case dict nd =>
        rcases hnd : alookup nd "leads" with _ | nv
        · simp only [dict_leads, hv, hl, hnd, Except.ok.injEq] at hd
          omega
        · rcases hlen : pyLen nv with _ | m
          · simp [dict_leads, hv, hl, hnd, hlen] at hd
          · simp only [dict_leads, hv, hl, hnd, hlen, Except.ok.injEq] at hd
            omega
      all_goals
        simp only [dict_leads, hv, hl, Except.ok.injEq] at hd
        omega
  · left
    refine ⟨v, rfl, ?_⟩
    simpa only [dict_leads, hv] using hd

/-- Counterexample to claim C5: on the unexpected shape 42 (an int) the
parser leaves success true with a null error message — it does not record
a failure — and a mapping with an explicit negative leads_found yields a
negative count. -/
theorem claim_C5_counterexample :
    (parse_agent_output "agent" (PyVal.int 42)).success = true
    ∧ (parse_agent_output "agent" (PyVal.int 42)).error_message = Option.none
    ∧ (parse_agent_output "agent" (PyVal.int 42)).leads_found = 0
    ∧ (parse_agent_output "agent"
        (.dict [("leads_found", .int (-3))])).leads_found = -3 :=
  ⟨rfl, rfl, rfl, rfl⟩

/-- Claim C5 (amended): parse_agent_output is total (never raises); on an
unexpected shape (None, bool, number, object without a leads attribute)
it returns the zero-valued record with success still true and a null
error message (the source only logs a warning there); and the result's
leads_found is non-negative for every input except a mapping whose
explicit leads_found field casts to a negative integer, which is passed
through. -/
theorem claim_C5_amended :
    (∀ a : String,
      parse_agent_output a .none = defaultParseResult
      ∧ (∀ b, parse_agent_output a (.bool b) = defaultParseResult)
      ∧ (∀ n, parse_agent_output a (.int n) = defaultParseResult)
      ∧ (∀ q, parse_agent_output a (.float q) = defaultParseResult)
      ∧ (∀ ln, parse_agent_output a (.obj Option.none ln) = defaultParseResult))
    ∧ (∀ (a : String) (out : PyVal),
      0 ≤ (parse_agent_output a out).leads_found
      ∨ ∃ (d : List (String × PyVal)) (v : PyVal) (n : Int),
          out = .dict d ∧ alookup d "leads_found" = some v
          ∧ pyIntCast v = .ok n ∧ n < 0) := by
  constructor
  · intro a
    exact ⟨rfl, fun b => rfl, fun n => rfl, fun q => rfl, fun ln => rfl⟩
  · intro a out
    cases out
    case dict d =>
      rcases hp : parse_dict_output d with e | le
      · left
        simp [parse_agent_output, hp, defaultParseResult]
      · obtain ⟨l, et⟩ := le
        have hdl := parse_dict_ok_leads hp
        rcases dict_leads_cases hdl with ⟨v, hv, hc⟩ | hnn
        · rcases le_or_lt 0 l with h0 | h0
          · left
            simpa [parse_agent_output, hp] using h0
          · right
            exact ⟨d, v, l, rfl, hv, hc, h0⟩
        · left
          simpa [parse_agent_output, hp] using hnn
    case str s =>
      left
      simp [parse_agent_output, Int.natCast_nonneg]
    case obj ol ln =>
      rcases ol with _ | lv
      · left
        simp [parse_agent_output, defaultParseResult]
      · rcases hlen : pyLen lv with _ | m
        · left
          simp [parse_agent_output, hlen, defaultParseResult]
        · left
          simp [parse_agent_output, hlen, Int.natCast_nonneg]
    case list l =>
      left
      simp [parse_agent_output, Int.natCast_nonneg]
    all_goals
      left
      simp [parse_agent_output, defaultParseResult]

/- ----------------------------------------------------------------------
Claim C8.
---------------------------------------------------------------------- -/

/-- Claim C8: get_state returns percentage
round(100 * completed / total, 1), and estimated_completion equals
now + (elapsed / current_step) * (total - current_step) exactly when
start_time and current_task_start are set (truthy: a time.time() value is
never 0.0) and current_step > 0, and null otherwise. -/
theorem claim_C8 (sm : SMState) (now : ℚ) (htot : 0 < sm.total_tasks) :
    ∃ snap, get_state sm now = .ok snap
    ∧ snap.percentage
        = round1 (100 * (sm.completed_tasks.length : ℚ) / (sm.total_tasks : ℚ))
    ∧ (∀ s c, sm.start_time = some s → s ≠ 0 →
        sm.current_task_start = some c → c ≠ 0 → 0 < sm.current_step →
        snap.estimated_completion
          = some (now + ((now - s) / (sm.current_step : ℚ)) *
              ((sm.total_tasks : ℚ) - (sm.current_step : ℚ))))
    ∧ ((sm.start_time = Option.none ∨ sm.start_time = some 0
        ∨ sm.current_task_start = Option.none ∨ sm.current_task_start = some 0
        ∨ sm.current_step = 0) →
        snap.estimated_completion = Option.none) := by
  have hne : ¬ sm.total_tasks = 0 := by omega
  unfold get_state
  rw [if_neg hne]
  refine ⟨_, rfl, ?_, ?_, ?_⟩
  · show round1 _ = round1 _
    congr 1
    ring
  · intro s c hs hs0 hc hc0 hstep
    simp only [hs, hc]
    simp [hs0, hc0, hstep]
  · intro h
    rcases hst : sm.start_time with _ | s
    · simp [hst]
    · rcases hcs : sm.current_task_start with _ | c
      · simp [hst, hcs]
      · rw [hst, hcs] at h
        have hz : s = 0 ∨ c = 0 ∨ sm.current_step = 0 := by
          rcases h with h | h | h | h | h
          · exact absurd h (by simp)
          · exact Or.inl (Option.some.inj h)
          · exact absurd h (by simp)
          · exact Or.inr (Or.inl (Option.some.inj h))
          · exact Or.inr (Or.inr h)
        rcases hz with h0 | h0 | h0 <;> simp [hst, hcs, h0]

/-- Witness for claim C8: at the concrete state and now = 20, the
percentage is 25.0 (1 of 4 tasks) and the ETA is
20 + ((20 - 10) / 1) * (4 - 1) = 50. -/
theorem claim_C8_witness :
    ∃ snap, get_state c8sm 20 = .ok snap
    ∧ snap.percentage = 25
    ∧ snap.estimated_completion = some 50 := by
  obtain ⟨snap, h1, h2, h3, _⟩ := claim_C8 c8sm 20 (by decide)
  refine ⟨snap, h1, ?_, ?_⟩
  · rw [h2]
    norm_num [c8sm, initState, round1]
  · rw [h3 10 12 rfl (by norm_num) rfl (by norm_num) (by decide)]
    norm_num [c8sm, initState]

/- ----------------------------------------------------------------------
Claim C1.
---------------------------------------------------------------------- -/

/-- Claim C1 (evaluated at failing inputs): the handlers do let
exceptions escape.  handle_crew_end on an event that carries a result
raises AttributeError, because AnalyticsParser defines no
extract_analytics_from_result method; handle_task_end on an event with a
truthy output raises AttributeError after processing, because
AnalyticsParser defines no parse_task_output method. -/
theorem claim_C1 :
    (handle_crew_end (initState 0) [("result", PyVal.str "final result")] 1).2
      = .error (.attributeError "extract_analytics_from_result")
    ∧ (handle_task_end initEH (initState 0)
        [("task", PyVal.dict [("description", PyVal.str "Scrape LinkedIn for leads")]),
         ("output", PyVal.str "5 leads found")] 1).map (fun r => r.2.2)
      = some (.error (.attributeError "parse_task_output")) :=
  ⟨rfl, rfl⟩

/- ----------------------------------------------------------------------
Claim C3.
---------------------------------------------------------------------- -/

/-- Counterexample to claim C3: on the mapping with a 3-element leads
list, the Pydantic-record path (extract_analytics) yields 0 because the
output has no explicit leads_found entry, while the parser path yields 3
(the list length rule) — the two extraction paths are not equivalent. -/
theorem claim_C3_counterexample :
    extract_analytics (.dict [("leads", .list [.int 1, .int 2, .int 3])]) true
      = .ok (.int 0)
    ∧ (parse_agent_output "scraper_agent"
        (.dict [("leads", .list [.int 1, .int 2, .int 3])])).leads_found = 3
    ∧ (0 : Int) ≠ 3 :=
  ⟨rfl, rfl, by decide⟩

/-- Claim C3 (amended): the two extraction paths agree on sequence
outputs (both yield the length) and on mapping outputs that carry an
integer-valued explicit leads_found field and parse successfully; on
other shapes (text, mappings without an explicit integer leads_found)
they may diverge. -/
theorem claim_C3_amended (agent : String) :
    (∀ l : List PyVal,
      extract_analytics (.list l) true = .ok (.int (l.length : Int))
      ∧ (parse_agent_output agent (.list l)).leads_found = (l.length : Int))
    ∧ (∀ (d : List (String × PyVal)) (n l : Int) (et : Option ℚ),
      alookup d "leads_found" = some (.int n) →
      parse_dict_output d = .ok (l, et) →
      extract_analytics (.dict d) true = .ok (.int n)
      ∧ (parse_agent_output agent (.dict d)).leads_found = n) := by
  constructor
  · intro l
    refine ⟨?_, rfl⟩
    cases l
    · rfl
    · rfl
  · intro d n l et hv hp
    have hne : d ≠ [] := alookup_some_ne_nil hv
    have hl : l = n := dict_explicit_leads hv rfl hp
    constructor
    · have htr : pyTruthy (.dict d) = true := by
        cases d
        · exact absurd rfl hne
        · rfl
      simp [extract_analytics, htr, hv]
    · simp [parse_agent_output, hp, hl]

/-- Witness for claim C3 at a concrete mapping with an explicit integer
leads_found field, where both paths yield 7. -/
theorem claim_C3_witness :
    extract_analytics (.dict [("leads_found", .int 7)]) true = .ok (.int 7)
    ∧ (parse_agent_output "a" (.dict [("leads_found", .int 7)])).leads_found = 7 :=
  (claim_C3_amended "a").2 [("leads_found", .int 7)] 7 7 Option.none rfl rfl

/- ----------------------------------------------------------------------
Claim C9.
---------------------------------------------------------------------- -/

/-- A successful fallback return leaves the state unchanged. -/
theorem fallback_some {sm sm2 : SMState} {out : PyVal}
    (h : paoFallback sm out = some sm2) : sm2 = sm := by
  unfold paoFallback at h
  split at h
  · exact absurd h (by simp)
  · exact (Option.some.inj h).symm

/-- Counterexample to claim C9: after reset_state the state dict's
analytics shows 0 while the retained Pydantic model still holds 3; a
subsequent process_agent_output call with success = false (a zero delta)
syncs the stale 3 back into the state dict — the analytics mapping is
changed by the call, not left unchanged. -/
theorem claim_C9_counterexample :
    c9state2.analytics = [("leads_found", PyVal.int 0)]
    ∧ c9state3.analytics = [("leads_found", PyVal.int 3)]
    ∧ PyVal.int 3 ≠ PyVal.int 0 :=
  ⟨rfl, rfl, by intro h; exact absurd (PyVal.int.inj h) (by decide)⟩

/-- Claim C9 (amended): when the state dict's analytics agrees with the
Pydantic model (as holds whenever neither update_analytics nor
reset_state has intervened since initialization), a process_agent_output
call with success = false or a falsy output (and a well-typed
execution_time) leaves the analytics mapping unchanged and modifies only
last_update. -/
theorem claim_C9_amended (sm : SMState) (a t : String) (out : PyVal)
    (succ : Bool) (em : Option String) (et : PyVal) (now : ℚ)
    (hcond : succ = false ∨ pyTruthy out = false)
    (het : validOptionalFloat et = true)
    (hq : ∃ q, pyNum sm.pyd_leads_found = some q ∧ 0 ≤ q)
    (hsync : sm.analytics = [("leads_found", sm.pyd_leads_found)]) :
    process_agent_output sm a t out succ em et now
      = some { sm with last_update := now } := by
  obtain ⟨q, hnum, hq0⟩ := hq
  have hex : extract_analytics out succ = .ok (.int 0) := by
    rcases hcond with h | h
    · subst h
      rfl
    · simp [extract_analytics, h]
  have hmax : pyMax sm.pyd_leads_found (.int 0) = .ok sm.pyd_leads_found := by
    have h0 : pyNum (PyVal.int 0) = some 0 := by simp [pyNum]
    simp only [pyMax, hnum, h0]
    rw [if_neg (by exact not_lt.mpr hq0)]
  simp only [process_agent_output, het, if_true, hex, hmax]
  rw [← hsync]

/-- Witness for claim C9 at a fresh manager and a failed report. -/
theorem claim_C9_witness :
    process_agent_output (initState 0) "a" "t" (PyVal.str "ignored") false
      Option.none PyVal.none 5 = some { initState 0 with last_update := 5 } :=
  claim_C9_amended (initState 0) "a" "t" (PyVal.str "ignored") false
    Option.none PyVal.none 5 (Or.inl rfl) rfl
    ⟨0, by simp [initState, pyNum], le_refl 0⟩ rfl

/- ----------------------------------------------------------------------
Claim C4.
---------------------------------------------------------------------- -/

/-- An index found by idxOf is within the list. -/
theorem idxOf_lt_length {t : String} :
    ∀ (l : List String) (i : Nat), idxOf l t = some i → i < l.length := by
  intro l
  induction l with
  | nil =>
    intro i h
    simp [idxOf] at h
  | cons a as ih =>
    intro i h
    by_cases hat : a = t
    · rw [idxOf, if_pos hat] at h
      obtain rfl := (Option.some.inj h).symm
      simp
    · rw [idxOf, if_neg hat] at h
      rcases hrec : idxOf as t with _ | j
      · rw [hrec] at h
        exact absurd h (by simp)
      · rw [hrec] at h
        simp only [Option.map_some'] at h
        obtain rfl := (Option.some.inj h).symm
        have := ih j hrec
        simp only [List.length_cons]
        omega

/-- A completed process_agent_output call never changes current_step (it
only touches the analytics fields and last_update, or nothing at all). -/
theorem pao_preserves_step {sm sm2 : SMState} {a t : String} {out : PyVal}
    {succ : Bool} {em : Option String} {et : PyVal} {now : ℚ}
    (h : process_agent_output sm a t out succ em et now = some sm2) :
    sm2.current_step = sm.current_step := by
  unfold process_agent_output at h
  split at h
  · split at h
    · split at h
      · obtain rfl := (Option.some.inj h).symm
        rfl
      · obtain rfl := fallback_some h
        rfl
    · obtain rfl := fallback_some h
      rfl
  · obtain rfl := fallback_some h
    rfl

/-- Each operation keeps current_step within 0..4. -/
theorem apply_op_step_le {st : SMState × Bool} {op : SMOp}
    (h : st.1.current_step ≤ 4) : (apply_op st op).1.current_step ≤ 4 := by
  unfold apply_op
  by_cases hh : st.2
  · rw [if_pos hh]
    exact h
  · rw [if_neg hh]
    cases op with
    | reset now => simp [reset_state, initState]
    | setStatus s now => simpa [update_workflow_status] using h
    | setAgent a now => simpa [update_current_agent] using h
    | setTask t now =>
      rcases t with _ | name
      · simpa [update_current_task] using h
      · by_cases hq : name = ""
        · simpa [update_current_task, hq] using h
        · rcases hi : idxOf task_order name with _ | i
          · simpa [update_current_task, hq, hi] using h
          · have hlt : i < task_order.length := idxOf_lt_length task_order i hi
            have h4 : task_order.length = 4 := by rfl
            simp only [update_current_task, if_neg hq, hi]
            omega
    | setTool tn now => simpa [update_current_tool] using h
    | addTask tn now =>
      simp only [add_completed_task]
      split <;> simpa using h
    | addErr e now => simpa [add_error] using h
    | updAnalytics u now => simpa [update_analytics] using h
    | updEval u now => simpa [update_evaluation_results] using h
    | pao a t out succ em et now =>
      rcases hp : process_agent_output st.1 a t out succ em et now with _ | sm2
      · simpa [hp] using h
      · have := pao_preserves_step hp
        simp only [hp]
        omega
    | setStart now => simpa [set_start_time] using h

/-- current_step stays within 0..4 along every operation sequence. -/
theorem run_ops_step_le (ops : List SMOp) :
    ∀ st : SMState × Bool, st.1.current_step ≤ 4 →
      (run_ops st ops).1.current_step ≤ 4 := by
  induction ops with
  | nil =>
    intro st h
    exact h
  | cons op rest ih =>
    intro st h
    exact ih _ (apply_op_step_le h)

/-- Counterexample to claim C4: set the canonical task scrape_leads
(current_step becomes 1), then clear the current task; the code does not
reset current_step, so the state has current_task = null with
current_step = 1, not 0. -/
theorem claim_C4_counterexample :
    (update_current_task (update_current_task (initState 0)
        (some "scrape_leads") 1) Option.none 2).current_task = Option.none
    ∧ (update_current_task (update_current_task (initState 0)
        (some "scrape_leads") 1) Option.none 2).current_step = 1 :=
  ⟨rfl, rfl⟩

/-- Claim C4 (amended): in every reachable state current_step lies in
0..4; setting a canonical task sets current_step to its 1-based index;
but clearing the current task (update_current_task None) leaves
current_step at its previous value rather than resetting it to 0, and
setting a non-canonical task name (e.g. collect_user_input, unknown_task)
changes current_task while leaving current_step unchanged. -/
theorem claim_C4_amended :
    (∀ ops : List SMOp,
      (run_ops (initState 0, false) ops).1.current_step ≤ 4)
    ∧ (∀ (sm : SMState) (now : ℚ) (name : String) (i : Nat),
      idxOf task_order name = some i →
      (update_current_task sm (some name) now).current_step = i + 1)
    ∧ (∀ (sm : SMState) (now : ℚ),
      update_current_task sm Option.none now
        = { sm with current_task := Option.none, last_update := now })
    ∧ (∀ (sm : SMState) (now : ℚ) (name : String),
      idxOf task_order name = Option.none →
      (update_current_task sm (some name) now).current_step
        = sm.current_step) := by
  refine ⟨?_, ?_, ?_, ?_⟩
  · intro ops
    exact run_ops_step_le ops (initState 0, false) (by simp [initState])
  · intro sm now name i hi
    by_cases hq : name = ""
    · subst hq
      exact absurd hi (by simp [idxOf, task_order])
    · simp [update_current_task, hq, hi]
  · intro sm now
    rfl
  · intro sm now name hi
    by_cases hq : name = ""
    · simp [update_current_task, hq]
    · simp [update_current_task, hq, hi]

/-- Witness for claim C4: the bound after one concrete operation, the
index rule at find_lead_emails (step 2), and the unchanged step for the
non-canonical collect_user_input. -/
theorem claim_C4_witness :
    (run_ops (initState 0, false)
        [SMOp.setTask (some "scrape_leads") 1]).1.current_step ≤ 4
    ∧ (update_current_task (initState 0)
        (some "find_lead_emails") 1).current_step = 2
    ∧ (update_current_task (initState 0)
        (some "collect_user_input") 1).current_step
      = (initState 0).current_step :=
  ⟨claim_C4_amended.1 _,
   claim_C4_amended.2.1 (initState 0) 1 "find_lead_emails" 1 rfl,
   claim_C4_amended.2.2.2 (initState 0) 1 "collect_user_input" rfl⟩

/- ----------------------------------------------------------------------
Claim C2.
---------------------------------------------------------------------- -/

/-- Reading leadsQ through the sync invariant. -/
theorem leadsQ_of_sync {sm : SMState} {q : ℚ}
    (hs : sm.analytics = [("leads_found", sm.pyd_leads_found)])
    (hn : pyNum sm.pyd_leads_found = some q) : leadsQ sm = q := by
  simp [leadsQ, hs, alookup, hn]

/-- process_agent_output preserves the sync invariant and never lowers
the state's leads_found (the merge is max(current, delta)). -/
theorem pao_mono {sm sm2 : SMState} {a t : String} {out : PyVal}
    {succ : Bool} {em : Option String} {et : PyVal} {now : ℚ}
    (hinv : SyncInv sm)
    (h : process_agent_output sm a t out succ em et now = some sm2) :
    SyncInv sm2 ∧ leadsQ sm ≤ leadsQ sm2 := by
  obtain ⟨hs, q, hn, hq0⟩ := hinv
  by_cases hv : validOptionalFloat et = true
  · rcases hex : extract_analytics out succ with e | newLeads
    · rw [show process_agent_output sm a t out succ em et now
          = paoFallback sm out from by
            simp only [process_agent_output, hv, if_true, hex]] at h
      obtain rfl := fallback_some h
      exact ⟨⟨hs, q, hn, hq0⟩, le_refl _⟩
    · rcases hmax : pyMax sm.pyd_leads_found newLeads with e2 | m
      · rw [show process_agent_output sm a t out succ em et now
            = paoFallback sm out from by
              simp only [process_agent_output, hv, if_true, hex, hmax]] at h
        obtain rfl := fallback_some h
        exact ⟨⟨hs, q, hn, hq0⟩, le_refl _⟩
      · rw [show process_agent_output sm a t out succ em et now
            = some { sm with
                pyd_leads_found := m,
                analytics := [("leads_found", m)],
                last_update := now } from by
              simp only [process_agent_output, hv, if_true, hex, hmax]] at h
        obtain rfl := (Option.some.inj h).symm
        rcases hy : pyNum newLeads with _ | y
        · simp [pyMax, hn, hy] at hmax
        · have hm : m = if q < y then newLeads else sm.pyd_leads_found := by
            have hx := hmax
            simp only [pyMax, hn, hy] at hx
            exact (Except.ok.inj hx).symm
          have h1 : leadsQ sm = q := leadsQ_of_sync hs hn
          by_cases hlt : q < y
          · rw [if_pos hlt] at hm
            rw [hm]
            refine ⟨⟨rfl, ⟨y, hy, by linarith⟩⟩, ?_⟩
            have h2 : leadsQ { sm with
                pyd_leads_found := newLeads,
                analytics := [("leads_found", newLeads)],
                last_update := now } = y := leadsQ_of_sync rfl hy
            rw [h1, h2]
            linarith
          · rw [if_neg hlt] at hm
            rw [hm]
            refine ⟨⟨rfl, ⟨q, hn, hq0⟩⟩, ?_⟩
            have h2 : leadsQ { sm with
                pyd_leads_found := sm.pyd_leads_found,
                analytics := [("leads_found", sm.pyd_leads_found)],
                last_update := now } = q := leadsQ_of_sync rfl hn
            rw [h1, h2]
  · have hv' : validOptionalFloat et = false := by
      simpa using hv
    rw [show process_agent_output sm a t out succ em et now
        = paoFallback sm out from by
          simp [process_agent_output, hv']] at h
    obtain rfl := fallback_some h
    exact ⟨⟨hs, q, hn, hq0⟩, le_refl _⟩

/-- add_completed_task touches neither analytics field. -/
theorem add_completed_analytics {sm : SMState} {t : String} {now : ℚ} :
    (add_completed_task sm t now).analytics = sm.analytics
    ∧ (add_completed_task sm t now).pyd_leads_found = sm.pyd_leads_found := by
  unfold add_completed_task
  dsimp only
  split <;> exact ⟨rfl, rfl⟩

/-- Transport of the invariant and of leadsQ along states that agree on
the two analytics fields. -/
theorem sync_congr {sm sm' : SMState}
    (ha : sm'.analytics = sm.analytics)
    (hp : sm'.pyd_leads_found = sm.pyd_leads_found) :
    (SyncInv sm → SyncInv sm') ∧ leadsQ sm' = leadsQ sm := by
  constructor
  · rintro ⟨hs, q, hn, h0⟩
    refine ⟨?_, q, ?_, h0⟩
    · rw [ha, hp]
      exact hs
    · rw [hp]
      exact hn
  · unfold leadsQ
    rw [ha]

/-- handle_task_end (completed or raising) preserves the sync invariant
and never lowers the state's leads_found: it only adds a completed task,
runs process_agent_output, and then raises on the missing
parse_task_output before its backup update_analytics merge could run. -/
theorem taskEnd_mono {eh : EHState} {sm : SMState} {ev : List (String × PyVal)}
    {now : ℚ} {r : EHState × SMState × Except PyErr Unit}
    (hinv : SyncInv sm)
    (h : handle_task_end eh sm ev now = some r) :
    SyncInv r.2.1 ∧ leadsQ sm ≤ leadsQ r.2.1 := by
  unfold handle_task_end at h
  rcases hdesc : ev_get_nested ev "task" "description" (.str "Unknown Task")
      with e | desc
  · simp only [hdesc] at h
    obtain rfl := (Option.some.inj h).symm
    exact ⟨hinv, le_refl _⟩
  · simp only [hdesc] at h
    rcases hkey : extract_task_key desc with e | key
    · simp only [hkey] at h
      obtain rfl := (Option.some.inj h).symm
      exact ⟨hinv, le_refl _⟩
    · simp only [hkey] at h
      have hadd := @add_completed_analytics sm key now
      have hcongr := sync_congr hadd.1 hadd.2
      rcases hout : alookup ev "output" with _ | out
      · simp only [hout] at h
        obtain rfl := (Option.some.inj h).symm
        exact ⟨hcongr.1 hinv, le_of_eq hcongr.2.symm⟩
      · simp only [hout] at h
        by_cases htr : pyTruthy out = true
        · rw [if_pos htr] at h
          rcases hp : process_agent_output (add_completed_task sm key now)
              (extract_agent_name_from_task key) key out true Option.none
              ((alookup ev "execution_time").getD PyVal.none) now
              with _ | sm2
          · rw [hp] at h
            exact absurd h (by simp)
          · rw [hp] at h
            obtain rfl := (Option.some.inj h).symm
            have hmono := pao_mono (hcongr.1 hinv) hp
            refine ⟨hmono.1, ?_⟩
            calc leadsQ sm = leadsQ (add_completed_task sm key now) :=
                  hcongr.2.symm
              _ ≤ leadsQ sm2 := hmono.2
        · rw [if_neg htr] at h
          obtain rfl := (Option.some.inj h).symm
          exact ⟨hcongr.1 hinv, le_of_eq hcongr.2.symm⟩

/-- One run step preserves the invariant and never lowers leads_found. -/
theorem runStep_mono {rs : RunSt} {s : RunStep} (hinv : SyncInv rs.sm) :
    SyncInv (runStep rs s).sm ∧ leadsQ rs.sm ≤ leadsQ (runStep rs s).sm := by
  by_cases hh : rs.halted
  · rw [show runStep rs s = rs from by unfold runStep; rw [if_pos hh]]
    exact ⟨hinv, le_refl _⟩
  · cases s with
    | pao a t out succ em et now =>
      rcases hp : process_agent_output rs.sm a t out succ em et now with _ | sm2
      · rw [show runStep rs (RunStep.pao a t out succ em et now)
            = { rs with halted := true } from by
              unfold runStep
              rw [if_neg hh]
              simp only [hp]]
        exact ⟨hinv, le_refl _⟩
      · rw [show runStep rs (RunStep.pao a t out succ em et now)
            = { rs with sm := sm2 } from by
              unfold runStep
              rw [if_neg hh]
              simp only [hp]]
        exact pao_mono hinv hp
    | taskEnd ev now =>
      rcases ht : handle_task_end rs.eh rs.sm ev now with _ | r
      · rw [show runStep rs (RunStep.taskEnd ev now)
            = { rs with halted := true } from by
              unfold runStep
              rw [if_neg hh]
              simp only [ht]]
        exact ⟨hinv, le_refl _⟩
      · rw [show runStep rs (RunStep.taskEnd ev now)
            = { rs with eh := r.1, sm := r.2.1 } from by
              unfold runStep
              rw [if_neg hh]
              simp only [ht]]
        exact taskEnd_mono hinv ht

/-- A run preserves the invariant and never lowers leads_found. -/
theorem runSteps_mono (l : List RunStep) :
    ∀ rs : RunSt, SyncInv rs.sm →
      SyncInv (runSteps rs l).sm ∧ leadsQ rs.sm ≤ leadsQ (runSteps rs l).sm := by
  induction l with
  | nil =>
    intro rs h
    exact ⟨h, le_refl _⟩
  | cons s rest ih =>
    intro rs h
    have h1 := @runStep_mono rs s h
    have h2 := ih (runStep rs s) h1.1
    exact ⟨h2.1, le_trans h1.2 h2.2⟩

/-- Claim C2: along every workflow run built from analytics updates
(direct process_agent_output calls with their max-merge, and
handle_task_end invocations, whose backup update_analytics merge is never
reached), the state's analytics leads_found value is non-decreasing: the
value after any extension of the run is at least the value before it. -/
theorem claim_C2 (steps extra : List RunStep) :
    leadsQ (runSteps initRun steps).sm
      ≤ leadsQ (runSteps initRun (steps ++ extra)).sm := by
  have hinit : SyncInv initRun.sm :=
    ⟨rfl, 0, by simp [initRun, initState, pyNum], le_refl 0⟩
  have h1 := runSteps_mono steps initRun hinit
  have heq : runSteps initRun (steps ++ extra)
      = runSteps (runSteps initRun steps) extra := by
    unfold runSteps
    rw [List.foldl_append]
  rw [heq]
  exact (runSteps_mono extra _ h1.1).2
